import Mathlib

/-!
Verification development for the `aml_project` fraud-scoring pipeline.

The repository has two front ends, `src/app.py` (Flask) and
`src/streamlit_app.py` (Streamlit), sharing the same preprocessing and
scoring logic over a pickled artifact bundle (encoder, scaler, classifier).
We embed the pandas batch as an ordered list of named, typed columns, the
opaque trained artifacts per their declared contracts, and the pipeline
functions line by line from the source.
-/

set_option autoImplicit false

deriving instance DecidableEq for Except

namespace AmlProject

/-- A raw cell of a pandas DataFrame: a string, a number (modelled on ℚ),
or a missing value (NaN). -/
inductive Value where
  | str (s : String)
  | num (q : Rat)
  | missing
deriving DecidableEq, Repr, Inhabited

/-- A pandas column dtype, as distinguished by `select_dtypes` in
`preprocess_data`: `object` (strings) versus numeric. -/
inductive Dtype where
  | object
  | number
deriving DecidableEq, Repr, Inhabited

/-- One named, dtyped column of a DataFrame. -/
structure Column where
  name : String
  dtype : Dtype
  values : List Value
deriving DecidableEq, Repr, Inhabited

/-- A pandas DataFrame: an ordered list of columns. All columns of a
well-formed frame have the same length (`DataFrame.wellFormed`). -/
structure DataFrame where
  cols : List Column
deriving DecidableEq, Repr, Inhabited

/-- The ordered column names of a frame (`df.columns`). -/
def DataFrame.colNames (df : DataFrame) : List String :=
  df.cols.map (fun c => c.name)

/-- The number of rows of a frame (length of its first column; 0 when the
frame has no columns). -/
def DataFrame.nrows (df : DataFrame) : Nat :=
  ((df.cols.head?).map (fun c => c.values.length)).getD 0

/-- `df.empty` in pandas: true when the frame has no columns or no rows. -/
def DataFrame.emptyB (df : DataFrame) : Bool :=
  df.cols.isEmpty || df.nrows == 0

/-- Well-formedness: every column has the common row count. -/
def DataFrame.wellFormed (df : DataFrame) : Prop :=
  ∀ c ∈ df.cols, c.values.length = df.nrows

instance (df : DataFrame) : Decidable df.wellFormed := by
  unfold DataFrame.wellFormed; infer_instance

/-- Row `i` of a frame, as the list of cell values in column order. -/
def DataFrame.rowAt (df : DataFrame) (i : Nat) : List Value :=
  df.cols.map (fun c => c.values.getD i Value.missing)

/-- All rows of a frame, in order. -/
def DataFrame.rows (df : DataFrame) : List (List Value) :=
  (List.range df.nrows).map df.rowAt

/-- Row `i` of a frame viewed as a record: a total map from column name to
cell value, with `missing` for absent columns (the Record of spec §3). -/
def DataFrame.recordAt (df : DataFrame) (i : Nat) : String → Value :=
  fun name =>
    match df.cols.find? (fun c => c.name = name) with
    | some c => c.values.getD i Value.missing
    | none => Value.missing

/-- All rows of a frame as records, in order. -/
def DataFrame.records (df : DataFrame) : List (String → Value) :=
  (List.range df.nrows).map df.recordAt

/-- All-or-nothing elementwise application, modelling a vectorized call
that raises on any element (`none`) and otherwise returns all results. -/
def optionMapList {α β : Type} (f : α → Option β) : List α → Option (List β)
  | [] => some []
  | x :: xs =>
    match f x, optionMapList f xs with
    | some y, some ys => some (y :: ys)
    | _, _ => none

/-- `Series.astype(str)` on a cell: strings are unchanged, NaN prints as
"nan". (Applied by the source only to object-dtype columns, whose cells
are strings or missing.) -/
def astypeStr : Value → String
  | Value.str s => s
  | Value.num q => toString q
  | Value.missing => "nan"

/-- Modelled from the spec: the artifact bundle's categorical encoder
(`ENCODER`, a pickled artifact, not repository code) — a finite ordered
vocabulary of known labels with its deterministic label-to-integer code
mapping (spec §3); `transform` fails on any label outside the vocabulary
(the failed-transform path of spec §4.1). -/
structure Encoder where
  classes : List String

/-- The integer code of one label: its index in the vocabulary, `none`
when the label is unseen. -/
def Encoder.transformVal (e : Encoder) (s : String) : Option Nat :=
  e.classes.findIdx? (fun c => c = s)

/-- `ENCODER.transform` on a column of labels: all codes, or failure if
any label is unseen. -/
def Encoder.transform (e : Encoder) (vs : List String) : Option (List Nat) :=
  optionMapList e.transformVal vs

/-- Modelled from the spec: the artifact bundle's numeric scaler
(`SCALER`, a pickled artifact, not repository code) — declares an ordered
list of expected feature names (`get_feature_names_out`) and per-feature
centering/spread parameters used for an affine transform (spec §3). -/
structure Scaler where
  features : List String
  mean : String → Rat
  scale : String → Rat

/-- The scaler's affine transform on one cell of feature `f`:
`(x - mean) / scale` on numbers; non-numeric cells pass through. -/
def Scaler.transformVal (s : Scaler) (f : String) : Value → Value
  | Value.num q => Value.num ((q - s.mean f) / s.scale f)
  | v => v

/-- Modelled from the spec: the artifact bundle's classifier (`MODEL`, a
pickled artifact, not repository code) — declares an ordered list of
expected input feature names, and exposes per-row prediction and a
two-class probability pair in fixed class order (class 0 = legitimate
first, class 1 = fraud second); either call may fail, which the source
surfaces as a scoring error (spec §3, §4.2). -/
structure Model where
  features : List String
  predictRow : List Value → Option Int
  probaRow : List Value → Option (Rat × Rat)

/-- The per-column body of the encoding loop (`src/app.py` lines 113-120,
`src/streamlit_app.py` lines 86-92, line-for-line identical up to the
warning sink): for an object-dtype column, first `astype(str)` is applied
and assigned, then `ENCODER.transform`; on success the column holds the
integer codes (numeric dtype), on failure the already-stringified column
is left untransformed and the column name is reported as a warning.
Non-object columns are untouched. -/
def encodeCol (e : Encoder) (c : Column) : Column × Option String :=
  if c.dtype = Dtype.object then
    let strs := c.values.map astypeStr
    match e.transform strs with
    | some codes =>
      (⟨c.name, Dtype.number, codes.map (fun n => Value.num ((n : Nat) : Rat))⟩, none)
    | none =>
      (⟨c.name, Dtype.object, strs.map Value.str⟩, some c.name)
  else (c, none)

/-- The encoding phase over all columns, returning the updated columns and
the warned column names in column order. -/
def encodeStep (e : Encoder) (cols : List Column) : List Column × List String :=
  (cols.map (fun c => (encodeCol e c).1), cols.filterMap (fun c => (encodeCol e c).2))

/-- One column of the scaling phase: columns named in `featuresToScale`
get the scaler's affine transform, others are unchanged
(`src/app.py` line 130, `src/streamlit_app.py` line 99). -/
def scaleCol (s : Scaler) (featuresToScale : List String) (c : Column) : Column :=
  if c.name ∈ featuresToScale then
    ⟨c.name, c.dtype, c.values.map (s.transformVal c.name)⟩
  else c

/-- The scaling phase (`src/app.py` lines 122-131, `src/streamlit_app.py`
lines 94-99): `features_to_scale` is the sublist of the scaler's declared
features present among the column names, and exactly those columns are
transformed; declared features that are absent are skipped. -/
def scaleStep (s : Scaler) (cols : List Column) : List Column :=
  cols.map (scaleCol s (s.features.filter (fun f => f ∈ cols.map (fun c => c.name))))

/-- `preprocess_data(df)` of `src/app.py` lines 99-135: copy the frame,
encode the object-dtype columns (failures per column downgraded to printed
warnings), then scale the scaler-declared features that are present. The
whole body is wrapped in try/except re-raising as ValueError; under the
artifact model no operation in the body raises, so the result is always
`ok` of the processed frame together with the warned column names. -/
def preprocess_data_app (e : Encoder) (s : Scaler) (df : DataFrame) :
    Except String (DataFrame × List String) :=
  let encoded := encodeStep e df.cols
  Except.ok (⟨scaleStep s encoded.1⟩, encoded.2)

/-- `preprocess_data(df, ENCODER, SCALER)` of `src/streamlit_app.py` lines
73-104: line-for-line the same body as the Flask variant, with the
per-column warning emitted via `st.warning` instead of `print`. -/
def preprocess_data_st (df : DataFrame) (e : Encoder) (s : Scaler) :
    Except String (DataFrame × List String) :=
  let encoded := encodeStep e df.cols
  Except.ok (⟨scaleStep s encoded.1⟩, encoded.2)

/-- `make_predictions` (`src/app.py` lines 137-152, `src/streamlit_app.py`
lines 106-117): `MODEL.predict` then `MODEL.predict_proba` on the processed
frame as handed over — no column selection or reordering; any failure of
either call is re-raised as a scoring ValueError, all-or-nothing for the
batch. -/
def make_predictions (m : Model) (df : DataFrame) :
    Except String (List Int × List (Rat × Rat)) :=
  match optionMapList m.predictRow df.rows, optionMapList m.probaRow df.rows with
  | some preds, some probs => Except.ok (preds, probs)
  | _, _ => Except.error "Error making predictions"

/-- The feature matrix the scoring step receives in both front ends: the
output frame of preprocessing, passed to `MODEL.predict` as-is
(`src/app.py` lines 200-203, `src/streamlit_app.py` lines 170-173). -/
def handedMatrix (e : Encoder) (s : Scaler) (df : DataFrame) : DataFrame :=
  ⟨scaleStep s (encodeStep e df.cols).1⟩

/-- The batch-level summary statistics, computed identically in both front
ends (`src/app.py` lines 213-217, `src/streamlit_app.py` lines 176-179):
`total_rows = len(predictions)`, `fraud_count = int(np.sum(predictions))`,
`legit_count = total_rows - fraud_count`, and
`fraud_percentage = fraud_count / total_rows * 100 if total_rows > 0 else 0`. -/
structure Stats where
  totalRows : Nat
  fraudCount : Int
  legitCount : Int
  fraudPercentage : Rat
deriving DecidableEq, Repr

/-- The statistics block shared verbatim by the two front ends. -/
def fraudStats (predictions : List Int) : Stats :=
  let totalRows := predictions.length
  let fraudCount := predictions.sum
  let legitCount := (totalRows : Int) - fraudCount
  let fraudPercentage : Rat :=
    if totalRows > 0 then (fraudCount : Rat) / (totalRows : Rat) * 100 else 0
  ⟨totalRows, fraudCount, legitCount, fraudPercentage⟩

/-- The floor of a rational number, via flooring integer division. -/
def ratFloor (q : Rat) : Int :=
  q.num.fdiv q.den

/-- Round-half-to-even to the nearest integer, the tie-breaking rule of
Python's built-in `round` and of `format(x, ".2f")`. -/
def rndHalfEven (q : Rat) : Int :=
  let f : Int := ratFloor q
  let r : Rat := q - (f : Rat)
  if r < 1/2 then f
  else if 1/2 < r then f + 1
  else if f % 2 = 0 then f else f + 1

/-- `round(x, 2)` (`src/app.py` line 225) and the `:.2f` display format
(`src/streamlit_app.py` line 218): rounding to two decimal places. -/
def round2 (q : Rat) : Rat :=
  ((rndHalfEven (q * 100)) : Rat) / 100

/-- `LAST_PREDICTIONS`, the Flask app's Prediction Session State
(`src/app.py` lines 206-211): the original frame's records, the
predictions, the probability pairs, and a timestamp, written in one
assignment. -/
structure PredState where
  originalData : DataFrame
  predictions : List Int
  probabilities : List (Rat × Rat)
  timestamp : String
deriving DecidableEq, Repr

/-- The JSON success payload of `/api/predict` (`src/app.py` lines
220-229). -/
structure Response where
  totalRows : Nat
  fraudCount : Int
  legitCount : Int
  fraudPercentage : Rat
  predictions : List Int
  probabilities : List (Rat × Rat)
deriving DecidableEq, Repr

/-- The outcome of one `/api/predict` request: a success payload or an
HTTP error status with a message. -/
inductive ApiResult where
  | ok (r : Response)
  | err (status : Nat) (msg : String)
deriving DecidableEq, Repr

/-- The file part of a `/api/predict` request: absent, or a named upload
whose read by `read_uploaded_file` yields a frame or a read error. -/
inductive Upload where
  | noFile
  | file (filename : String) (content : Except String DataFrame)

/-- The characters after the last dot of a name: the result of
`filename.rsplit('.', 1)[1]` when a dot is present. -/
def afterLastDot (cs : List Char) : List Char :=
  (cs.reverse.takeWhile (fun c => ¬ c = '.')).reverse

/-- `allowed_file` (`src/app.py` lines 79-81, `src/streamlit_app.py` lines
52-55): the name contains a dot and the text after the last dot
(`rsplit('.', 1)[1]`), lowercased, is xlsx, csv or xls. -/
def allowed_file (filename : String) : Bool :=
  filename.toList.contains '.' &&
    (["xlsx", "csv", "xls"].contains
      (String.mk ((afterLastDot filename.toList).map Char.toLower)))

/-- The `/api/predict` route body (`src/app.py` lines 168-237) from the
file checks on: missing/unnamed/disallowed file and read errors are 400s;
an empty frame is a 400 before preprocessing; preprocessing and scoring
errors are caught as 400s; on success `LAST_PREDICTIONS` is replaced
wholesale by one assignment and the statistics are computed from the
predictions, with the percentage rounded to two decimals in the payload.
On every error path the state is returned untouched. -/
def predict (e : Encoder) (s : Scaler) (m : Model) (now : String)
    (upload : Upload) (last : Option PredState) : ApiResult × Option PredState :=
  match upload with
  | Upload.noFile => (ApiResult.err 400 "No file provided", last)
  | Upload.file filename content =>
    if filename = "" then (ApiResult.err 400 "No file selected", last)
    else if ¬ allowed_file filename then
      (ApiResult.err 400 "File type not allowed. Use .xlsx, .xls, or .csv", last)
    else
      match content with
      | Except.error msg => (ApiResult.err 400 ("Error reading file: " ++ msg), last)
      | Except.ok df =>
        if df.emptyB then (ApiResult.err 400 "Uploaded file is empty", last)
        else
          match preprocess_data_app e s df with
          | Except.error msg => (ApiResult.err 400 msg, last)
          | Except.ok (dfp, _warnings) =>
            match make_predictions m dfp with
            | Except.error msg => (ApiResult.err 400 msg, last)
            | Except.ok (preds, probs) =>
              let newState : PredState := ⟨df, preds, probs, now⟩
              let st := fraudStats preds
              (ApiResult.ok ⟨st.totalRows, st.fraudCount, st.legitCount,
                round2 st.fraudPercentage, preds, probs⟩, some newState)

/-- `df_results` built by `/api/download-predictions` (`src/app.py` lines
264-267): the original records with `Prediction`, then `Fraud_Probability`
(= `prob[1]`, the second component of each probability pair) and
`Legit_Probability` (= `prob[0]`, the first component) appended. -/
def download_predictions (st : PredState) : DataFrame :=
  ⟨st.originalData.cols ++
    [⟨"Prediction", Dtype.number, st.predictions.map (fun i => Value.num i)⟩,
     ⟨"Fraud_Probability", Dtype.number, st.probabilities.map (fun p => Value.num p.2)⟩,
     ⟨"Legit_Probability", Dtype.number, st.probabilities.map (fun p => Value.num p.1)⟩]⟩

/-- The value stored in `st.session_state` by the Streamlit front end
(`src/streamlit_app.py` lines 188-194): the statistics (the percentage
stored unrounded) plus the results frame. -/
structure StResults where
  totalRows : Nat
  fraudCount : Int
  legitCount : Int
  fraudPercentage : Rat
  dfResults : DataFrame
deriving DecidableEq, Repr

/-- The fraud-percentage metric as displayed by the dashboard
(`src/streamlit_app.py` line 218, the `:.2f` format). -/
def stDisplayedPct (r : StResults) : Rat :=
  round2 r.fraudPercentage

/-- The Streamlit `main` prediction flow (`src/streamlit_app.py` lines
154-195) from the frame on: an empty frame is rejected before any pipeline
stage; preprocessing and scoring errors surface as data errors; on success
`df_results` is the original frame with `Prediction`, `Fraud_Probability`
(= `prob[1]`) and `Legit_Probability` (= `prob[0]`) appended, and
`st.session_state` receives the results in one assignment. On every error
path the session state is returned untouched. -/
def stMain (e : Encoder) (s : Scaler) (m : Model) (df : DataFrame)
    (session : Option StResults) : Except String StResults × Option StResults :=
  if df.emptyB then (Except.error "Uploaded file is empty.", session)
  else
    match preprocess_data_st df e s with
    | Except.error msg => (Except.error ("Data Error: " ++ msg), session)
    | Except.ok (dfp, _warnings) =>
      match make_predictions m dfp with
      | Except.error msg => (Except.error ("Data Error: " ++ msg), session)
      | Except.ok (preds, probs) =>
        let st := fraudStats preds
        let dfResults : DataFrame :=
          ⟨df.cols ++
            [⟨"Prediction", Dtype.number, preds.map (fun i => Value.num i)⟩,
             ⟨"Fraud_Probability", Dtype.number, probs.map (fun p => Value.num p.2)⟩,
             ⟨"Legit_Probability", Dtype.number, probs.map (fun p => Value.num p.1)⟩]⟩
        let res : StResults := ⟨st.totalRows, st.fraudCount, st.legitCount,
          st.fraudPercentage, dfResults⟩
        (Except.ok res, some res)

/-- The Amount field of a record for the rule overlay: numbers are taken
as-is, a missing or non-numeric Amount is treated as 0 (spec §4.3). -/
def ruleAmount (r : String → Value) : Rat :=
  match r "Amount" with
  | Value.num q => q
  | _ => 0

/-- Leading and trailing whitespace removed from a string (Python's
`str.strip`), over the character list. -/
def trimStr (s : String) : String :=
  String.mk (((s.toList.dropWhile Char.isWhitespace).reverse.dropWhile
    Char.isWhitespace).reverse)

/-- A string field of a record for the rule overlay: trimmed exact text, a
missing or non-string field is treated as the empty string (spec §4.3:
comparisons are exact, post-trim). -/
def ruleStr (r : String → Value) (field : String) : String :=
  match r field with
  | Value.str s => trimStr s
  | _ => ""

/-- Modelled from the spec: the Rule Overlay Engine of §4.3 is not present
in `src/` (the spec records it as an explicit iteration observed in the
source); its per-record flag, evaluated in priority order with first match
winning: 1. Amount > 13500 → fraud; 2. else Amount ≤ 13500 and Country in
Morocco/Pakistan → fraud; 3. else PaymentType in Check/Credit Card and
Currency in MAD/PKR/AED → fraud; 4. else legitimate. -/
def ruleFlag (r : String → Value) : Nat :=
  if ruleAmount r > 13500 then 1
  else if ruleAmount r ≤ 13500 ∧
      (ruleStr r "Country" = "Morocco" ∨ ruleStr r "Country" = "Pakistan") then 1
  else if (ruleStr r "PaymentType" = "Check" ∨ ruleStr r "PaymentType" = "Credit Card") ∧
      (ruleStr r "Currency" = "MAD" ∨ ruleStr r "Currency" = "PKR" ∨
        ruleStr r "Currency" = "AED") then 1
  else 0

/-- Modelled from the spec: `applyRules` of §6 — the pure rule overlay
over a batch, one flag per record, always succeeding; it takes no
classifier input. -/
def applyRules (batch : List (String → Value)) : List Nat :=
  batch.map ruleFlag

/-- Branch 1 of the rule overlay, with first-match-wins semantics. -/
def ruleBranch1 (r : String → Value) : Prop :=
  ruleAmount r > 13500

/-- Branch 2: reached only when branch 1 did not match. -/
def ruleBranch2 (r : String → Value) : Prop :=
  ¬ ruleBranch1 r ∧ ruleAmount r ≤ 13500 ∧
    (ruleStr r "Country" = "Morocco" ∨ ruleStr r "Country" = "Pakistan")

/-- Branch 3: reached only when branches 1 and 2 did not match. -/
def ruleBranch3 (r : String → Value) : Prop :=
  ¬ ruleBranch1 r ∧ ¬ ruleBranch2 r ∧
    (ruleStr r "PaymentType" = "Check" ∨ ruleStr r "PaymentType" = "Credit Card") ∧
    (ruleStr r "Currency" = "MAD" ∨ ruleStr r "Currency" = "PKR" ∨
      ruleStr r "Currency" = "AED")

/-- Branch 4 (legitimate): none of the fraud branches matched. -/
def ruleBranch4 (r : String → Value) : Prop :=
  ¬ ruleBranch1 r ∧ ¬ ruleBranch2 r ∧ ¬ ruleBranch3 r

/-- The per-cell effect of the encoding phase on one column: on object
columns, code lookup when the whole column encodes, stringification when
it does not; other columns are untouched. -/
def encCellMap (e : Encoder) (c : Column) : Value → Value :=
  if c.dtype = Dtype.object then
    if (e.transform (c.values.map astypeStr)).isSome then
      fun v => Value.num ((((e.transformVal (astypeStr v)).getD 0 : Nat)) : Rat)
    else fun v => Value.str (astypeStr v)
  else fun v => v

/-- The per-cell effect of the whole preprocessing pipeline on a cell of
column `c` of frame `df`: encoding, then the affine transform when the
column is a scaler-declared feature present in the frame. -/
def cellMap (e : Encoder) (s : Scaler) (df : DataFrame) (c : Column)
    (v : Value) : Value :=
  if c.name ∈ s.features ∧ c.name ∈ df.colNames then
    s.transformVal c.name (encCellMap e c v)
  else encCellMap e c v

/-- Whether an API result is a success payload. -/
def ApiResult.isOk : ApiResult → Bool
  | ApiResult.ok _ => true
  | ApiResult.err _ _ => false

section Lemmas

theorem optionMapList_length {α β : Type} (f : α → Option β) :
    ∀ (xs : List α) (ys : List β), optionMapList f xs = some ys →
      ys.length = xs.length := by
  intro xs
  induction xs with
  | nil => intro ys h; cases h; rfl
  | cons x xs ih =>
    intro ys h
    unfold optionMapList at h
    cases hfx : f x with
    | none => rw [hfx] at h; simp at h
    | some y =>
      rw [hfx] at h
      cases hrest : optionMapList f xs with
      | none => rw [hrest] at h; simp at h
      | some ys2 =>
        rw [hrest] at h
        simp only [Option.some.injEq] at h
        subst h
        simp [ih ys2 hrest]

theorem optionMapList_mem {α β : Type} (f : α → Option β) :
    ∀ (xs : List α) (ys : List β), optionMapList f xs = some ys →
      ∀ y ∈ ys, ∃ x ∈ xs, f x = some y := by
  intro xs
  induction xs with
  | nil => intro ys h; cases h; intro y hy; cases hy
  | cons x xs ih =>
    intro ys h
    unfold optionMapList at h
    cases hfx : f x with
    | none => rw [hfx] at h; simp at h
    | some y0 =>
      rw [hfx] at h
      cases hrest : optionMapList f xs with
      | none => rw [hrest] at h; simp at h
      | some ys2 =>
        rw [hrest] at h
        simp only [Option.some.injEq] at h
        subst h
        intro y hy
        cases hy with
        | head => exact ⟨x, List.mem_cons_self x xs, hfx⟩
        | tail _ hy2 =>
          obtain ⟨x2, hx2, hfx2⟩ := ih ys2 hrest y hy2
          exact ⟨x2, List.mem_cons_of_mem x hx2, hfx2⟩

theorem optionMapList_isSome {α β : Type} (f : α → Option β) :
    ∀ (xs : List α), (∀ x ∈ xs, (f x).isSome) →
      ∃ ys, optionMapList f xs = some ys := by
  intro xs
  induction xs with
  | nil => intro _; exact ⟨[], rfl⟩
  | cons x xs ih =>
    intro h
    have hx := h x (List.mem_cons_self x xs)
    obtain ⟨y, hy⟩ := Option.isSome_iff_exists.mp hx
    obtain ⟨ys, hys⟩ := ih (fun a ha => h a (List.mem_cons_of_mem x ha))
    exact ⟨y :: ys, by unfold optionMapList; rw [hy, hys]⟩

theorem optionMapList_eq_map_getD {α β : Type} (f : α → Option β) (d : β) :
    ∀ (xs : List α) (ys : List β), optionMapList f xs = some ys →
      ys = xs.map (fun x => (f x).getD d) := by
  intro xs
  induction xs with
  | nil => intro ys h; cases h; rfl
  | cons x xs ih =>
    intro ys h
    unfold optionMapList at h
    cases hfx : f x with
    | none => rw [hfx] at h; simp at h
    | some y =>
      rw [hfx] at h
      cases hrest : optionMapList f xs with
      | none => rw [hrest] at h; simp at h
      | some ys2 =>
        rw [hrest] at h
        simp only [Option.some.injEq] at h
        subst h
        simp [hfx, ih ys2 hrest]

theorem optionMapList_none_of_mem {α β : Type} (f : α → Option β)
    {x : α} : ∀ {xs : List α}, x ∈ xs → f x = none →
      optionMapList f xs = none := by
  intro xs hx hfx
  induction xs with
  | nil => cases hx
  | cons a xs ih =>
    unfold optionMapList
    cases hx with
    | head => rw [hfx]
    | tail _ hx2 =>
      rw [ih hx2]
      cases f a <;> rfl

theorem encodeCol_name (e : Encoder) (c : Column) :
    (encodeCol e c).1.name = c.name := by
  unfold encodeCol
  split
  · cases h : e.transform (c.values.map astypeStr) <;> simp [h]
  · rfl

theorem encodeCol_values (e : Encoder) (c : Column) :
    (encodeCol e c).1.values = c.values.map (encCellMap e c) := by
  unfold encodeCol encCellMap
  split
  · cases h : e.transform (c.values.map astypeStr) with
    | none => simp [h, Function.comp]
    | some codes =>
      simp only [h, Option.isSome_some, if_true]
      have h2 := optionMapList_eq_map_getD e.transformVal 0
        (c.values.map astypeStr) codes h
      rw [h2, List.map_map, List.map_map]
      rfl
  · simp [encCellMap, *]

theorem encodeCol_length (e : Encoder) (c : Column) :
    (encodeCol e c).1.values.length = c.values.length := by
  rw [encodeCol_values]; simp

theorem scaleCol_name (s : Scaler) (fts : List String) (c : Column) :
    (scaleCol s fts c).name = c.name := by
  unfold scaleCol; split <;> rfl

theorem scaleCol_values (s : Scaler) (fts : List String) (c : Column) :
    (scaleCol s fts c).values =
      if c.name ∈ fts then c.values.map (s.transformVal c.name)
      else c.values := by
  unfold scaleCol; split <;> simp_all

theorem scaleCol_length (s : Scaler) (fts : List String) (c : Column) :
    (scaleCol s fts c).values.length = c.values.length := by
  rw [scaleCol_values]; split <;> simp

theorem encodeStep_fst (e : Encoder) (cols : List Column) :
    (encodeStep e cols).1 = cols.map (fun c => (encodeCol e c).1) := rfl

theorem encodeStep_names (e : Encoder) (cols : List Column) :
    (encodeStep e cols).1.map (fun c => c.name) = cols.map (fun c => c.name) := by
  rw [encodeStep_fst, List.map_map]
  exact List.map_congr_left (fun c _ => encodeCol_name e c)

theorem handedMatrix_cols (e : Encoder) (s : Scaler) (df : DataFrame) :
    (handedMatrix e s df).cols =
      df.cols.map (fun c =>
        scaleCol s (s.features.filter (fun f => f ∈ df.colNames))
          (encodeCol e c).1) := by
  unfold handedMatrix scaleStep
  rw [encodeStep_fst]
  have hnames : ((df.cols.map (fun c => (encodeCol e c).1)).map (fun c => c.name)) =
      df.colNames := by
    rw [List.map_map]
    exact List.map_congr_left (fun c _ => encodeCol_name e c)
  rw [hnames, List.map_map]
  rfl

theorem handedMatrix_colNames (e : Encoder) (s : Scaler) (df : DataFrame) :
    (handedMatrix e s df).colNames = df.colNames := by
  unfold DataFrame.colNames
  rw [handedMatrix_cols, List.map_map]
  exact List.map_congr_left (fun c _ => by
    simp [scaleCol_name, encodeCol_name])

theorem preprocess_app_eq_ok (e : Encoder) (s : Scaler) (df : DataFrame) :
    preprocess_data_app e s df =
      Except.ok (handedMatrix e s df, (encodeStep e df.cols).2) := rfl

theorem preprocess_app_st_agree (df : DataFrame) (e : Encoder) (s : Scaler) :
    preprocess_data_app e s df = preprocess_data_st df e s := rfl

theorem preprocess_st_eq_ok (df : DataFrame) (e : Encoder) (s : Scaler) :
    preprocess_data_st df e s =
      Except.ok (handedMatrix e s df, (encodeStep e df.cols).2) := rfl

theorem emptyB_eq_false (df : DataFrame) :
    df.emptyB = false ↔ (¬ df.cols = [] ∧ 0 < df.nrows) := by
  unfold DataFrame.emptyB
  cases df.cols with
  | nil => simp
  | cons c cs => simp [Nat.pos_iff_ne_zero]

theorem emptyB_of_nrows_zero (df : DataFrame) (h : df.nrows = 0) :
    df.emptyB = true := by
  unfold DataFrame.emptyB
  simp [h]

theorem rows_length (df : DataFrame) : df.rows.length = df.nrows := by
  unfold DataFrame.rows
  simp

theorem rows_get? (df : DataFrame) (i : Nat) (h : i < df.nrows) :
    df.rows.get? i = some (df.rowAt i) := by
  unfold DataFrame.rows
  rw [List.get?_map, List.get?_range h]
  rfl

theorem optionMapList_get? {α β : Type} (f : α → Option β) :
    ∀ (xs : List α) (ys : List β), optionMapList f xs = some ys →
      ∀ (i : Nat) (x : α), xs.get? i = some x → ys.get? i = f x := by
  intro xs
  induction xs with
  | nil => intro ys h i x hx; cases hx
  | cons a xs ih =>
    intro ys h i x hx
    unfold optionMapList at h
    cases hfa : f a with
    | none => rw [hfa] at h; simp at h
    | some y0 =>
      rw [hfa] at h
      cases hrest : optionMapList f xs with
      | none => rw [hrest] at h; simp at h
      | some ys2 =>
        rw [hrest] at h
        simp only [Option.some.injEq] at h
        subst h
        cases i with
        | zero =>
          simp only [List.get?] at hx
          cases hx
          simp [List.get?, hfa]
        | succ j =>
          simp only [List.get?] at hx ⊢
          exact ih ys2 hrest j x hx

theorem sum_eq_count_ones :
    ∀ (l : List Int), (∀ p ∈ l, p = 0 ∨ p = 1) →
      l.sum = ((l.filter (fun p => p = 1)).length : Int) := by
  intro l
  induction l with
  | nil => intro _; rfl
  | cons p l ih =>
    intro h
    have hp := h p (List.mem_cons_self p l)
    have hrest := ih (fun q hq => h q (List.mem_cons_of_mem p hq))
    cases hp with
    | inl h0 => subst h0; simp [List.filter, hrest]
    | inr h1 =>
      subst h1
      simp only [List.sum_cons, hrest, List.filter]
      norm_num
      exact Int.add_comm 1 _

/-- The value assigned to `st.session_state` on a successful Streamlit
prediction run: statistics plus the results frame. -/
def stResultOf (df : DataFrame) (preds : List Int) (probs : List (Rat × Rat)) :
    StResults :=
  ⟨(fraudStats preds).totalRows, (fraudStats preds).fraudCount,
    (fraudStats preds).legitCount, (fraudStats preds).fraudPercentage,
    ⟨df.cols ++
      [⟨"Prediction", Dtype.number, preds.map (fun i => Value.num i)⟩,
       ⟨"Fraud_Probability", Dtype.number, probs.map (fun p => Value.num p.2)⟩,
       ⟨"Legit_Probability", Dtype.number, probs.map (fun p => Value.num p.1)⟩]⟩⟩

theorem predict_run_eq (e : Encoder) (s : Scaler) (m : Model) (now fn : String)
    (df : DataFrame) (last : Option PredState)
    (h1 : ¬ fn = "") (h2 : allowed_file fn = true) (h3 : df.emptyB = false) :
    predict e s m now (Upload.file fn (Except.ok df)) last =
      match make_predictions m (handedMatrix e s df) with
      | Except.error msg => (ApiResult.err 400 msg, last)
      | Except.ok (preds, probs) =>
        (ApiResult.ok ⟨(fraudStats preds).totalRows, (fraudStats preds).fraudCount,
          (fraudStats preds).legitCount, round2 (fraudStats preds).fraudPercentage,
          preds, probs⟩,
         some ⟨df, preds, probs, now⟩) := by
  cases hmp : make_predictions m (handedMatrix e s df) with
  | error msg =>
    simp [predict, h1, h2, h3, preprocess_app_eq_ok, hmp]
  | ok pp =>
    cases pp with
    | mk preds probs =>
      simp [predict, h1, h2, h3, preprocess_app_eq_ok, hmp]

theorem stMain_run_eq (e : Encoder) (s : Scaler) (m : Model) (df : DataFrame)
    (session : Option StResults) (h3 : df.emptyB = false) :
    stMain e s m df session =
      match make_predictions m (handedMatrix e s df) with
      | Except.error msg => (Except.error ("Data Error: " ++ msg), session)
      | Except.ok (preds, probs) =>
        (Except.ok (stResultOf df preds probs), some (stResultOf df preds probs)) := by
  cases hmp : make_predictions m (handedMatrix e s df) with
  | error msg =>
    simp [stMain, h3, preprocess_st_eq_ok, hmp]
  | ok pp =>
    cases pp with
    | mk preds probs =>
      simp [stMain, h3, preprocess_st_eq_ok, hmp, stResultOf]

theorem handedMatrix_nrows (e : Encoder) (s : Scaler) (df : DataFrame) :
    (handedMatrix e s df).nrows = df.nrows := by
  unfold DataFrame.nrows
  rw [handedMatrix_cols]
  cases df.cols with
  | nil => rfl
  | cons c cs =>
    simp [scaleCol_length, encodeCol_length]

theorem getD_map_of_lt {α β : Type} (f : α → β) (l : List α) (i : Nat)
    (h : i < l.length) (d : β) (d0 : α) :
    (l.map f).getD i d = f (l.getD i d0) := by
  rw [List.getD_eq_getElem?_getD, List.getD_eq_getElem?_getD, List.getElem?_map,
    List.getElem?_eq_getElem h]
  rfl

theorem handedMatrix_rowAt (e : Encoder) (s : Scaler) (df : DataFrame)
    (hwf : df.wellFormed) (i : Nat) (hi : i < df.nrows) :
    (handedMatrix e s df).rowAt i =
      df.cols.map (fun c => cellMap e s df c (c.values.getD i Value.missing)) := by
  unfold DataFrame.rowAt
  rw [handedMatrix_cols, List.map_map]
  apply List.map_congr_left
  intro c hc
  have hi2 : i < c.values.length := by rw [hwf c hc]; exact hi
  have hi3 : i < (encodeCol e c).1.values.length := by
    rw [encodeCol_length]; exact hi2
  show (scaleCol s (s.features.filter (fun f => f ∈ df.colNames))
    (encodeCol e c).1).values.getD i Value.missing =
    cellMap e s df c (c.values.getD i Value.missing)
  rw [scaleCol_values, encodeCol_name]
  unfold cellMap
  by_cases hmem : c.name ∈ s.features ∧ c.name ∈ df.colNames
  · rw [if_pos (List.mem_filter.mpr ⟨hmem.1, by simpa using hmem.2⟩), if_pos hmem]
    rw [getD_map_of_lt _ _ _ hi3 _ Value.missing, encodeCol_values,
      getD_map_of_lt _ _ _ hi2 _ Value.missing]
  · rw [if_neg ?_, if_neg hmem]
    · rw [encodeCol_values, getD_map_of_lt _ _ _ hi2 _ Value.missing]
    · intro hin
      rw [List.mem_filter] at hin
      exact hmem ⟨hin.1, by simpa using hin.2⟩

theorem make_predictions_ok_elim (m : Model) (df2 : DataFrame)
    (preds : List Int) (probs : List (Rat × Rat))
    (h : make_predictions m df2 = Except.ok (preds, probs)) :
    optionMapList m.predictRow df2.rows = some preds ∧
    optionMapList m.probaRow df2.rows = some probs := by
  unfold make_predictions at h
  cases h1 : optionMapList m.predictRow df2.rows with
  | none => rw [h1] at h; cases h2 : optionMapList m.probaRow df2.rows <;>
      rw [h2] at h <;> cases h
  | some ps =>
    rw [h1] at h
    cases h2 : optionMapList m.probaRow df2.rows with
    | none => rw [h2] at h; cases h
    | some qs =>
      rw [h2] at h
      simp only [Except.ok.injEq, Prod.mk.injEq] at h
      exact ⟨by rw [h.1], by rw [h.2]⟩

theorem make_predictions_ok_of_total (m : Model) (df2 : DataFrame)
    (hm : ∀ row, (m.predictRow row).isSome ∧ (m.probaRow row).isSome) :
    ∃ preds probs, make_predictions m df2 = Except.ok (preds, probs) := by
  obtain ⟨preds, hpreds⟩ :=
    optionMapList_isSome m.predictRow df2.rows (fun row _ => (hm row).1)
  obtain ⟨probs, hprobs⟩ :=
    optionMapList_isSome m.probaRow df2.rows (fun row _ => (hm row).2)
  refine ⟨preds, probs, ?_⟩
  unfold make_predictions
  rw [hpreds, hprobs]

end Lemmas

section Claims

/-- C1: `applyRules` maps each record, purely and independently of the
classifier, to a fraud flag by evaluating the rules in priority order with
first match winning (Amount > 13500; else Amount ≤ 13500 and Country in
Morocco/Pakistan; else PaymentType in Check/Credit Card and Currency in
MAD/PKR/AED; else legitimate); a missing Amount is treated as 0 and a
missing string field as the empty string, exactly one of the four branches
applies to every record, and the record with Amount 20000, Country France,
PaymentType Cash, Currency EUR gets flag 1 by rule 1. -/
theorem applyRules_first_match_priority :
    (∀ r : String → Value,
      (ruleBranch1 r ∨ ruleBranch2 r ∨ ruleBranch3 r ∨ ruleBranch4 r) ∧
      ¬ (ruleBranch1 r ∧ ruleBranch2 r) ∧ ¬ (ruleBranch1 r ∧ ruleBranch3 r) ∧
      ¬ (ruleBranch1 r ∧ ruleBranch4 r) ∧ ¬ (ruleBranch2 r ∧ ruleBranch3 r) ∧
      ¬ (ruleBranch2 r ∧ ruleBranch4 r) ∧ ¬ (ruleBranch3 r ∧ ruleBranch4 r) ∧
      (ruleFlag r = 1 ↔ (ruleBranch1 r ∨ ruleBranch2 r ∨ ruleBranch3 r)) ∧
      (ruleFlag r = 0 ↔ ruleBranch4 r) ∧
      (r "Amount" = Value.missing → ruleAmount r = 0) ∧
      (r "Country" = Value.missing → ruleStr r "Country" = "")) ∧
    (∀ batch : List (String → Value), applyRules batch = batch.map ruleFlag) ∧
    ruleFlag (fun f =>
      if f = "Amount" then Value.num 20000
      else if f = "Country" then Value.str "France"
      else if f = "PaymentType" then Value.str "Cash"
      else if f = "Currency" then Value.str "EUR"
      else Value.missing) = 1 := by
  refine ⟨fun r => ?_, fun batch => rfl, by decide⟩
  have hA : r "Amount" = Value.missing → ruleAmount r = 0 := by
    intro h; unfold ruleAmount; rw [h]
  have hC : r "Country" = Value.missing → ruleStr r "Country" = "" := by
    intro h; unfold ruleStr; rw [h]
  by_cases h1 : ruleAmount r > 13500 <;>
    by_cases h2 : ruleAmount r ≤ 13500 ∧
      (ruleStr r "Country" = "Morocco" ∨ ruleStr r "Country" = "Pakistan") <;>
      by_cases h3 : (ruleStr r "PaymentType" = "Check" ∨
          ruleStr r "PaymentType" = "Credit Card") ∧
        (ruleStr r "Currency" = "MAD" ∨ ruleStr r "Currency" = "PKR" ∨
          ruleStr r "Currency" = "AED") <;>
        simp_all [ruleBranch1, ruleBranch2, ruleBranch3, ruleBranch4, ruleFlag] <;>
          first
            | tauto
            | rw [if_neg (not_lt.mpr h1), if_neg (by tauto)]

/-- Witness for C1: the missing-field defaults, instantiated at the
all-missing record. -/
theorem applyRules_first_match_priority_witness :
    ruleAmount (fun _ => Value.missing) = 0 ∧
    ruleStr (fun _ => Value.missing) "Country" = "" :=
  ⟨((applyRules_first_match_priority.1
      (fun _ => Value.missing)).2.2.2.2.2.2.2.2.2.1) rfl,
   ((applyRules_first_match_priority.1
      (fun _ => Value.missing)).2.2.2.2.2.2.2.2.2.2) rfl⟩

/-- C5: a batch with zero records is rejected with an error by both front
ends before any pipeline stage runs: no scored batch is produced and the
prediction session state is returned unchanged. -/
theorem empty_batch_rejected (e : Encoder) (s : Scaler) (m : Model)
    (now fn : String) (df : DataFrame) (last : Option PredState)
    (session : Option StResults)
    (hrows : df.nrows = 0) (hfn : ¬ fn = "") (hal : allowed_file fn = true) :
    predict e s m now (Upload.file fn (Except.ok df)) last =
      (ApiResult.err 400 "Uploaded file is empty", last) ∧
    stMain e s m df session = (Except.error "Uploaded file is empty.", session) := by
  have hemp : df.emptyB = true := emptyB_of_nrows_zero df hrows
  constructor
  · simp [predict, hfn, hal, hemp]
  · simp [stMain, hemp]

/-- Witness for C5 at a concrete empty frame and valid filename. -/
theorem empty_batch_rejected_witness :
    (⟨[⟨"Amount", Dtype.number, []⟩]⟩ : DataFrame).nrows = 0 ∧
    ¬ "a.csv" = "" ∧ allowed_file "a.csv" = true ∧
    predict ⟨["x"]⟩ ⟨["Amount"], fun _ => 0, fun _ => 1⟩
        ⟨[], fun _ => some 0, fun _ => some (1, 0)⟩ "t"
        (Upload.file "a.csv" (Except.ok ⟨[⟨"Amount", Dtype.number, []⟩]⟩)) none =
      (ApiResult.err 400 "Uploaded file is empty", none) := by
  refine ⟨by decide, by decide, by decide, ?_⟩
  exact (empty_batch_rejected ⟨["x"]⟩ ⟨["Amount"], fun _ => 0, fun _ => 1⟩
    ⟨[], fun _ => some 0, fun _ => some (1, 0)⟩ "t" "a.csv"
    ⟨[⟨"Amount", Dtype.number, []⟩]⟩ none none
    (by decide) (by decide) (by decide)).1

/-- C10: the two `preprocess_data` implementations are extensionally
equal: for every frame, encoder and scaler, the Flask variant and the
Streamlit variant return the same processed frame and the same warned
columns (the two bodies differ only in where the non-fatal warning is
emitted), so the two front ends hand identical matrices to the
classifier. -/
theorem preprocess_front_ends_agree :
    (∀ (df : DataFrame) (e : Encoder) (s : Scaler),
      preprocess_data_app e s df = preprocess_data_st df e s) ∧
    (∀ (df : DataFrame) (e : Encoder) (s : Scaler) (m : Model),
      (match preprocess_data_app e s df with
        | Except.ok (dfp, _) => make_predictions m dfp
        | Except.error msg => Except.error msg) =
      (match preprocess_data_st df e s with
        | Except.ok (dfp, _) => make_predictions m dfp
        | Except.error msg => Except.error msg)) :=
  ⟨fun _ _ _ => rfl, fun _ _ _ _ => rfl⟩

/-- C6: on every fatal path of a prediction request the session state
`LAST_PREDICTIONS` is returned unmodified; on success it is replaced
wholesale in one assignment with a state built only from the current
request (equal whatever the previous state was, so never merged), carrying
this batch's predictions, probabilities and the request timestamp. -/
theorem session_state_untouched_or_replaced (e : Encoder) (s : Scaler)
    (m : Model) (now : String) (upload : Upload) (last last' : Option PredState) :
    (predict e s m now upload last).1 = (predict e s m now upload last').1 ∧
    (∀ st msg, (predict e s m now upload last).1 = ApiResult.err st msg →
      (predict e s m now upload last).2 = last) ∧
    (∀ r, (predict e s m now upload last).1 = ApiResult.ok r →
      (predict e s m now upload last).2 = (predict e s m now upload last').2 ∧
      ∃ ps : PredState, (predict e s m now upload last).2 = some ps ∧
        ps.predictions = r.predictions ∧ ps.probabilities = r.probabilities ∧
        ps.timestamp = now) := by
  cases upload with
  | noFile =>
    refine ⟨rfl, fun st msg h => rfl, fun r h => ?_⟩
    simp [predict] at h
  | file fn content =>
    by_cases hfn : fn = ""
    · refine ⟨by simp [predict, hfn], fun st msg h => by simp [predict, hfn],
        fun r h => ?_⟩
      simp [predict, hfn] at h
    · by_cases hal : allowed_file fn = true
      · cases content with
        | error msg =>
          refine ⟨by simp [predict, hfn, hal], fun st msg2 h => by
            simp [predict, hfn, hal], fun r h => ?_⟩
          simp [predict, hfn, hal] at h
        | ok df =>
          by_cases hemp : df.emptyB = true
          · refine ⟨by simp [predict, hfn, hal, hemp], fun st msg h => by
              simp [predict, hfn, hal, hemp], fun r h => ?_⟩
            simp [predict, hfn, hal, hemp] at h
          · have hemp2 : df.emptyB = false := by simpa using hemp
            rw [predict_run_eq e s m now fn df last hfn hal hemp2,
              predict_run_eq e s m now fn df last' hfn hal hemp2]
            cases hmp : make_predictions m (handedMatrix e s df) with
            | error msg =>
              refine ⟨rfl, fun st msg2 h => rfl, fun r h => ?_⟩
              simp at h
            | ok pp =>
              cases pp with
              | mk preds probs =>
                refine ⟨rfl, fun st msg h => by simp at h, fun r h => ?_⟩
                simp only [ApiResult.ok.injEq] at h
                subst h
                exact ⟨rfl, ⟨⟨df, preds, probs, now⟩, rfl, rfl, rfl, rfl⟩⟩
      · refine ⟨by simp [predict, hfn, hal], fun st msg h => by
          simp [predict, hfn, hal], fun r h => ?_⟩
        simp [predict, hfn, hal] at h

/-- Witness for C6 on a concrete fatal path: a request with no file leaves
a concrete previous session state in place. -/
theorem session_state_untouched_witness :
    (predict ⟨[]⟩ ⟨[], fun _ => 0, fun _ => 1⟩
      ⟨[], fun _ => some 0, fun _ => some (1, 0)⟩ "t" Upload.noFile
      (some ⟨⟨[]⟩, [], [], "old"⟩)).2 = some ⟨⟨[]⟩, [], [], "old"⟩ :=
  (session_state_untouched_or_replaced ⟨[]⟩ ⟨[], fun _ => 0, fun _ => 1⟩
    ⟨[], fun _ => some 0, fun _ => some (1, 0)⟩ "t" Upload.noFile
    (some ⟨⟨[]⟩, [], [], "old"⟩) none).2.1 400 "No file provided" (by decide)

/-- C2 counterexample: a batch missing scaler-declared numeric columns
("Amount" and "X" are declared, neither is a column of the batch) is not
rejected: `preprocess_data` succeeds, returning the frame unchanged with
no warnings and no error of any kind. -/
theorem preprocess_missing_scaler_feature_no_error :
    "Amount" ∈ (⟨["Amount", "X"], fun _ => 0, fun _ => 1⟩ : Scaler).features ∧
    ¬ "Amount" ∈ (⟨[⟨"Other", Dtype.number, [Value.num 2]⟩]⟩ : DataFrame).colNames ∧
    preprocess_data_app ⟨["a"]⟩ ⟨["Amount", "X"], fun _ => 0, fun _ => 1⟩
        ⟨[⟨"Other", Dtype.number, [Value.num 2]⟩]⟩ =
      Except.ok (⟨[⟨"Other", Dtype.number, [Value.num 2]⟩]⟩, []) := by
  exact ⟨by decide, by decide, by decide⟩

/-- C2 amended: preprocessing never fails with a missing-feature error (no
such error exists in the code); the scaler's affine transform is applied
exactly to the declared columns that are present in the batch, and
declared columns that are absent are silently skipped, the rest of the
batch passing through encoding only. -/
theorem preprocess_skips_absent_scaler_features (e : Encoder) (s : Scaler)
    (df : DataFrame) :
    (∃ out, preprocess_data_app e s df = Except.ok out) ∧
    (∀ (i : Nat) (c : Column), df.cols.get? i = some c →
      (¬ (c.name ∈ s.features ∧ c.name ∈ df.colNames) →
        (handedMatrix e s df).cols.get? i = some (encodeCol e c).1) ∧
      (c.name ∈ s.features ∧ c.name ∈ df.colNames →
        (handedMatrix e s df).cols.get? i = some
          ⟨c.name, (encodeCol e c).1.dtype,
            (encodeCol e c).1.values.map (s.transformVal c.name)⟩)) := by
  refine ⟨⟨(handedMatrix e s df, (encodeStep e df.cols).2),
    preprocess_app_eq_ok e s df⟩, ?_⟩
  intro i c hc
  have hstep : (handedMatrix e s df).cols.get? i =
      some (scaleCol s (s.features.filter (fun f => f ∈ df.colNames))
        (encodeCol e c).1) := by
    rw [handedMatrix_cols, List.get?_map, hc]
    rfl
  constructor
  · intro hmem
    rw [hstep]
    unfold scaleCol
    rw [encodeCol_name, if_neg]
    intro hin
    rw [List.mem_filter] at hin
    exact hmem ⟨hin.1, by simpa using hin.2⟩
  · intro hmem
    rw [hstep]
    unfold scaleCol
    rw [encodeCol_name, if_pos]
    exact List.mem_filter.mpr ⟨hmem.1, by simpa using hmem.2⟩

/-- Witness for the amended C2: on a batch with one numeric column "B"
and a scaler declaring only the absent feature "F", preprocessing succeeds
and column "B" passes through encoding only. -/
theorem preprocess_skips_absent_scaler_features_witness :
    (∃ out, preprocess_data_app ⟨["a"]⟩ ⟨["F"], fun _ => 0, fun _ => 1⟩
      ⟨[⟨"B", Dtype.number, [Value.num 3]⟩]⟩ = Except.ok out) ∧
    (handedMatrix ⟨["a"]⟩ ⟨["F"], fun _ => 0, fun _ => 1⟩
        ⟨[⟨"B", Dtype.number, [Value.num 3]⟩]⟩).cols.get? 0 =
      some (encodeCol ⟨["a"]⟩ ⟨"B", Dtype.number, [Value.num 3]⟩).1 := by
  have h := preprocess_skips_absent_scaler_features ⟨["a"]⟩
    ⟨["F"], fun _ => 0, fun _ => 1⟩ ⟨[⟨"B", Dtype.number, [Value.num 3]⟩]⟩
  exact ⟨h.1, (h.2 0 ⟨"B", Dtype.number, [Value.num 3]⟩ (by decide)).1 (by decide)⟩

/-- C3 counterexample: the matrix handed to the classifier is not aligned
to the classifier's declared expected features: for a classifier declaring
feature "Z" and a batch whose only column "A" holds a label unseen by the
encoder, preprocessing succeeds (no missing-feature error), the handed
matrix still has column list ["A"], and the unconverted categorical value
"zzz" reaches the classifier. -/
theorem classifier_gets_unaligned_matrix :
    (⟨["Z"], fun _ => some 0, fun _ => some (0, 1)⟩ : Model).features = ["Z"] ∧
    (handedMatrix ⟨["known"]⟩ ⟨["Z"], fun _ => 0, fun _ => 1⟩
      ⟨[⟨"A", Dtype.object, [Value.str "zzz"]⟩]⟩).colNames = ["A"] ∧
    ¬ (["A"] : List String) = ["Z"] ∧
    preprocess_data_app ⟨["known"]⟩ ⟨["Z"], fun _ => 0, fun _ => 1⟩
        ⟨[⟨"A", Dtype.object, [Value.str "zzz"]⟩]⟩ =
      Except.ok (⟨[⟨"A", Dtype.object, [Value.str "zzz"]⟩]⟩, ["A"]) ∧
    Value.str "zzz" ∈ (handedMatrix ⟨["known"]⟩ ⟨["Z"], fun _ => 0, fun _ => 1⟩
      ⟨[⟨"A", Dtype.object, [Value.str "zzz"]⟩]⟩).rowAt 0 := by
  exact ⟨by decide, by decide, by decide, by decide, by decide⟩

/-- C3 amended: the matrix handed to the classifier is the preprocessed
frame as-is, with exactly the input's column names in input order — no
selection or reordering against the classifier's declared feature list and
no missing-feature error — and the scoring outcome of a request is exactly
the classifier applied to that unaligned frame. -/
theorem classifier_receives_unaligned_frame (e : Encoder) (s : Scaler)
    (m : Model) (now fn : String) (df : DataFrame) (last : Option PredState)
    (hfn : ¬ fn = "") (hal : allowed_file fn = true) (hemp : df.emptyB = false) :
    (handedMatrix e s df).colNames = df.colNames ∧
    (∃ warns, preprocess_data_app e s df =
      Except.ok (handedMatrix e s df, warns)) ∧
    predict e s m now (Upload.file fn (Except.ok df)) last =
      match make_predictions m (handedMatrix e s df) with
      | Except.error msg => (ApiResult.err 400 msg, last)
      | Except.ok (preds, probs) =>
        (ApiResult.ok ⟨(fraudStats preds).totalRows, (fraudStats preds).fraudCount,
          (fraudStats preds).legitCount, round2 (fraudStats preds).fraudPercentage,
          preds, probs⟩,
         some ⟨df, preds, probs, now⟩) :=
  ⟨handedMatrix_colNames e s df,
    ⟨(encodeStep e df.cols).2, preprocess_app_eq_ok e s df⟩,
    predict_run_eq e s m now fn df last hfn hal hemp⟩

/-- Witness for the amended C3 at a concrete request. -/
theorem classifier_receives_unaligned_frame_witness :
    (handedMatrix ⟨["known"]⟩ ⟨["Z"], fun _ => 0, fun _ => 1⟩
      ⟨[⟨"A", Dtype.object, [Value.str "known"]⟩]⟩).colNames =
      (⟨[⟨"A", Dtype.object, [Value.str "known"]⟩]⟩ : DataFrame).colNames ∧
    (∃ warns, preprocess_data_app ⟨["known"]⟩ ⟨["Z"], fun _ => 0, fun _ => 1⟩
      ⟨[⟨"A", Dtype.object, [Value.str "known"]⟩]⟩ =
      Except.ok (handedMatrix ⟨["known"]⟩ ⟨["Z"], fun _ => 0, fun _ => 1⟩
        ⟨[⟨"A", Dtype.object, [Value.str "known"]⟩]⟩, warns)) := by
  have h := classifier_receives_unaligned_frame ⟨["known"]⟩
    ⟨["Z"], fun _ => 0, fun _ => 1⟩
    ⟨["Z"], fun _ => some 0, fun _ => some (0, 1)⟩ "t" "b.csv"
    ⟨[⟨"A", Dtype.object, [Value.str "known"]⟩]⟩ none
    (by decide) (by decide) (by decide)
  exact ⟨h.1, h.2.1⟩

/-- C4 counterexample: a batch with a categorical value unseen by the
encoder is not substituted with the encoder's first vocabulary entry: the
failed column is left as (stringified) text with a warning, not replaced
by code 0, so the claimed fallback policy does not exist in the code. -/
theorem unseen_label_not_substituted :
    preprocess_data_app ⟨["known"]⟩ ⟨[], fun _ => 0, fun _ => 1⟩
        ⟨[⟨"C", Dtype.object, [Value.str "zzz"]⟩]⟩ =
      Except.ok (⟨[⟨"C", Dtype.object, [Value.str "zzz"]⟩]⟩, ["C"]) ∧
    ¬ (handedMatrix ⟨["known"]⟩ ⟨[], fun _ => 0, fun _ => 1⟩
        ⟨[⟨"C", Dtype.object, [Value.str "zzz"]⟩]⟩).cols =
      [⟨"C", Dtype.number, [Value.num 0]⟩] := by
  exact ⟨by decide, by decide⟩

/-- C4 amended: encoding never aborts the batch: a column containing a
label unseen by the encoder is downgraded to a non-fatal warning naming
the column, the column is left untransformed (its stringified raw values),
no fallback substitution occurs, and preprocessing completes successfully
on the whole batch. -/
theorem unseen_label_warns_and_leaves_column (e : Encoder) (s : Scaler)
    (df : DataFrame) (c : Column) (v : Value)
    (hc : c ∈ df.cols) (hdt : c.dtype = Dtype.object) (hv : v ∈ c.values)
    (hunseen : e.transformVal (astypeStr v) = none) :
    ∃ dfp warns, preprocess_data_app e s df = Except.ok (dfp, warns) ∧
      c.name ∈ warns ∧
      (⟨c.name, Dtype.object, (c.values.map astypeStr).map Value.str⟩ : Column) ∈
        dfp.cols := by
  have htr : e.transform (c.values.map astypeStr) = none :=
    optionMapList_none_of_mem e.transformVal
      (List.mem_map_of_mem astypeStr hv) hunseen
  have henc : encodeCol e c =
      (⟨c.name, Dtype.object, (c.values.map astypeStr).map Value.str⟩,
        some c.name) := by
    unfold encodeCol
    rw [if_pos hdt]
    simp only [htr]
  refine ⟨handedMatrix e s df, (encodeStep e df.cols).2,
    preprocess_app_eq_ok e s df, ?_, ?_⟩
  · unfold encodeStep
    exact List.mem_filterMap.mpr ⟨c, hc, by rw [henc]⟩
  · rw [handedMatrix_cols]
    refine List.mem_map.mpr ⟨c, hc, ?_⟩
    rw [henc]
    unfold scaleCol
    split
    · congr 1
      rw [List.map_map]
      exact List.map_congr_left (fun x _ => rfl)
    · rfl

/-- Witness for the amended C4 at a concrete batch with the unseen label
"zzz" in column "C". -/
theorem unseen_label_warns_and_leaves_column_witness :
    ∃ dfp warns, preprocess_data_app ⟨["seen"]⟩ ⟨["N"], fun _ => 0, fun _ => 1⟩
        ⟨[⟨"C", Dtype.object, [Value.str "zzz", Value.str "seen"]⟩]⟩ =
      Except.ok (dfp, warns) ∧
      "C" ∈ warns ∧
      (⟨"C", Dtype.object,
        (([Value.str "zzz", Value.str "seen"] : List Value).map astypeStr).map
          Value.str⟩ : Column) ∈ dfp.cols :=
  unseen_label_warns_and_leaves_column ⟨["seen"]⟩ ⟨["N"], fun _ => 0, fun _ => 1⟩
    ⟨[⟨"C", Dtype.object, [Value.str "zzz", Value.str "seen"]⟩]⟩
    ⟨"C", Dtype.object, [Value.str "zzz", Value.str "seen"]⟩ (Value.str "zzz")
    (by decide) (by decide) (by decide) (by decide)

/-- C7 counterexample: the interactive dashboard's `fraud_count` is not
the rule-flag count: on a one-record batch with Amount 20000 (rule flag 1
by rule 1) and a classifier predicting 0, the dashboard summary counts 0
fraud records while the rule overlay flags 1. -/
theorem dashboard_fraud_count_uses_model_not_rule :
    ((stMain ⟨[]⟩ ⟨[], fun _ => 0, fun _ => 1⟩
        ⟨[], fun _ => some 0, fun _ => some (1, 0)⟩
        ⟨[⟨"Amount", Dtype.number, [Value.num 20000]⟩]⟩ none).1.toOption.map
      (fun r => r.fraudCount)) = some 0 ∧
    applyRules (⟨[⟨"Amount", Dtype.number, [Value.num 20000]⟩]⟩ :
      DataFrame).records = [1] ∧
    ¬ ((0 : Int) = 1) := by
  exact ⟨by decide, by decide, by decide⟩

/-- C7 amended: in both front ends `fraud_count` is the count of
model-predicted fraud records (the rule overlay plays no part),
`legit_count = total_rows - fraud_count`,
`fraud_percentage = 100 * fraud_count / total_rows` with the value defined
as 0 when `total_rows = 0` (never a division error), and the percentage is
rounded to two decimal places for display. -/
theorem summary_statistics_model_based (e : Encoder) (s : Scaler) (m : Model)
    (now fn : String) (df : DataFrame) (last : Option PredState)
    (session : Option StResults)
    (hfn : ¬ fn = "") (hal : allowed_file fn = true) (hemp : df.emptyB = false)
    (hm : ∀ row v, m.predictRow row = some v → v = 0 ∨ v = 1) :
    (∀ (r : Response) (st2 : Option PredState),
      predict e s m now (Upload.file fn (Except.ok df)) last =
        (ApiResult.ok r, st2) →
      r.totalRows = r.predictions.length ∧
      r.fraudCount = ((r.predictions.filter (fun p => p = 1)).length : Int) ∧
      r.legitCount = (r.totalRows : Int) - r.fraudCount ∧
      0 < r.totalRows ∧
      r.fraudPercentage =
        round2 (100 * (r.fraudCount : Rat) / (r.totalRows : Rat))) ∧
    (∀ (res : StResults) (se : Option StResults),
      stMain e s m df session = (Except.ok res, se) →
      ∃ preds probs,
        make_predictions m (handedMatrix e s df) = Except.ok (preds, probs) ∧
        res.totalRows = preds.length ∧
        res.fraudCount = ((preds.filter (fun p => p = 1)).length : Int) ∧
        res.legitCount = (res.totalRows : Int) - res.fraudCount ∧
        0 < res.totalRows ∧
        res.fraudPercentage = 100 * (res.fraudCount : Rat) / (res.totalRows : Rat) ∧
        stDisplayedPct res = round2 res.fraudPercentage) ∧
    (fraudStats []).totalRows = 0 ∧ (fraudStats []).fraudPercentage = 0 := by
  have hpos : 0 < df.nrows := ((emptyB_eq_false df).mp hemp).2
  have hstats : ∀ (preds : List Int) (probs : List (Rat × Rat)),
      make_predictions m (handedMatrix e s df) = Except.ok (preds, probs) →
      (∀ p ∈ preds, p = 0 ∨ p = 1) ∧ preds.length = df.nrows := by
    intro preds probs hok
    obtain ⟨hpreds, _⟩ := make_predictions_ok_elim m _ preds probs hok
    refine ⟨?_, ?_⟩
    · intro p hp
      obtain ⟨row, _, hrow⟩ := optionMapList_mem m.predictRow _ preds hpreds p hp
      exact hm row p hrow
    · rw [optionMapList_length m.predictRow _ preds hpreds, rows_length,
        handedMatrix_nrows]
  refine ⟨?_, ?_, rfl, by decide⟩
  · intro r st2 h
    rw [predict_run_eq e s m now fn df last hfn hal hemp] at h
    cases hmp : make_predictions m (handedMatrix e s df) with
    | error msg => rw [hmp] at h; simp at h
    | ok pp =>
      obtain ⟨preds, probs⟩ := pp
      rw [hmp] at h
      simp only [Prod.mk.injEq, ApiResult.ok.injEq] at h
      obtain ⟨hr, -⟩ := h
      subst hr
      obtain ⟨h01, hlen⟩ := hstats preds probs hmp
      have hlenpos : 0 < preds.length := hlen ▸ hpos
      refine ⟨rfl, sum_eq_count_ones preds h01, rfl, hlenpos, ?_⟩
      show round2 (fraudStats preds).fraudPercentage = _
      congr 1
      show (if 0 < preds.length then
        ((preds.sum : Rat)) / ((preds.length : Nat) : Rat) * 100 else 0) = _
      rw [if_pos hlenpos]
      show (preds.sum : Rat) / ((preds.length : Nat) : Rat) * 100 =
        100 * (preds.sum : Rat) / ((preds.length : Nat) : Rat)
      ring
  · intro res se h
    rw [stMain_run_eq e s m df session hemp] at h
    cases hmp : make_predictions m (handedMatrix e s df) with
    | error msg => rw [hmp] at h; simp at h
    | ok pp =>
      obtain ⟨preds, probs⟩ := pp
      rw [hmp] at h
      simp only [Prod.mk.injEq, Except.ok.injEq] at h
      obtain ⟨hr, -⟩ := h
      subst hr
      obtain ⟨h01, hlen⟩ := hstats preds probs hmp
      have hlenpos : 0 < preds.length := hlen ▸ hpos
      refine ⟨preds, probs, rfl, rfl, sum_eq_count_ones preds h01, rfl,
        hlenpos, ?_, rfl⟩
      show (if 0 < preds.length then
        ((preds.sum : Rat)) / ((preds.length : Nat) : Rat) * 100 else 0) = _
      rw [if_pos hlenpos]
      show (preds.sum : Rat) / ((preds.length : Nat) : Rat) * 100 =
        100 * (preds.sum : Rat) / ((preds.length : Nat) : Rat)
      ring

/-- Witness for the amended C7: the theorem applied at a concrete request
(its zero-record clause, with every hypothesis discharged concretely). -/
theorem summary_statistics_model_based_witness :
    (fraudStats []).totalRows = 0 ∧ (fraudStats []).fraudPercentage = 0 :=
  (summary_statistics_model_based ⟨[]⟩ ⟨[], fun _ => 0, fun _ => 1⟩
    ⟨[], fun _ => some 1, fun _ => some (0, 1)⟩ "t" "c.csv"
    ⟨[⟨"A", Dtype.number, [Value.num 1]⟩]⟩ none none
    (by decide) (by decide) (by decide)
    (fun row v hv => by
      injection hv with hv2
      subst hv2
      exact Or.inr rfl)).2.2

/-- C8: for every non-empty well-formed batch whose categorical values
are all in the encoder's vocabulary and whose numeric columns are
complete, scoring on the preprocessed frame succeeds with exactly as many
predictions and probability pairs as input records, and result row `i` is
the classifier applied to processed row `i`, which is the per-column cell
transform of input row `i` — order preserved end to end. -/
theorem score_preserves_length_and_order (e : Encoder) (s : Scaler) (m : Model)
    (df : DataFrame)
    (hwf : df.wellFormed) (hemp : df.emptyB = false)
    (hcat : ∀ c ∈ df.cols, c.dtype = Dtype.object →
      ∀ v ∈ c.values, (e.transformVal (astypeStr v)).isSome)
    (hnumc : ∀ c ∈ df.cols, c.dtype = Dtype.number →
      ∀ v ∈ c.values, ¬ v = Value.missing)
    (hm : ∀ row, (m.predictRow row).isSome ∧ (m.probaRow row).isSome) :
    ∃ preds probs,
      make_predictions m (handedMatrix e s df) = Except.ok (preds, probs) ∧
      preds.length = df.nrows ∧ probs.length = df.nrows ∧
      (∀ i, i < df.nrows →
        preds.get? i = m.predictRow ((handedMatrix e s df).rowAt i) ∧
        probs.get? i = m.probaRow ((handedMatrix e s df).rowAt i) ∧
        (handedMatrix e s df).rowAt i =
          df.cols.map (fun c => cellMap e s df c (c.values.getD i Value.missing))) := by
  obtain ⟨preds, probs, hok⟩ := make_predictions_ok_of_total m (handedMatrix e s df) hm
  obtain ⟨hpreds, hprobs⟩ := make_predictions_ok_elim m (handedMatrix e s df) preds probs hok
  have hnr : (handedMatrix e s df).nrows = df.nrows := handedMatrix_nrows e s df
  have hrl : (handedMatrix e s df).rows.length = df.nrows := by
    rw [rows_length, hnr]
  refine ⟨preds, probs, hok, ?_, ?_, ?_⟩
  · rw [optionMapList_length m.predictRow _ preds hpreds, hrl]
  · rw [optionMapList_length m.probaRow _ probs hprobs, hrl]
  · intro i hi
    have hrow : (handedMatrix e s df).rows.get? i =
        some ((handedMatrix e s df).rowAt i) :=
      rows_get? (handedMatrix e s df) i (by rw [hnr]; exact hi)
    exact ⟨optionMapList_get? m.predictRow _ preds hpreds i _ hrow,
      optionMapList_get? m.probaRow _ probs hprobs i _ hrow,
      handedMatrix_rowAt e s df hwf i hi⟩

/-- Witness for C8 at a concrete bundle and a two-row batch. -/
theorem score_preserves_length_and_order_witness :
    ∃ preds probs,
      make_predictions ⟨["Amount", "Country"], fun _ => some 1, fun _ => some (0, 1)⟩
        (handedMatrix ⟨["France"]⟩ ⟨["Zmount"], fun _ => 0, fun _ => 1⟩
          ⟨[⟨"Amount", Dtype.number, [Value.num 7, Value.num 8]⟩,
            ⟨"Country", Dtype.object, [Value.str "France", Value.str "France"]⟩]⟩) =
        Except.ok (preds, probs) ∧
      preds.length = (⟨[⟨"Amount", Dtype.number, [Value.num 7, Value.num 8]⟩,
        ⟨"Country", Dtype.object, [Value.str "France", Value.str "France"]⟩]⟩ :
          DataFrame).nrows := by
  obtain ⟨preds, probs, h1, h2, _⟩ := score_preserves_length_and_order
    ⟨["France"]⟩ ⟨["Zmount"], fun _ => 0, fun _ => 1⟩
    ⟨["Amount", "Country"], fun _ => some 1, fun _ => some (0, 1)⟩
    ⟨[⟨"Amount", Dtype.number, [Value.num 7, Value.num 8]⟩,
      ⟨"Country", Dtype.object, [Value.str "France", Value.str "France"]⟩]⟩
    (by decide) (by decide) (by decide) (by decide)
    (fun row => ⟨rfl, rfl⟩)
  exact ⟨preds, probs, h1, h2⟩

/-- C9: when the classifier's probability pairs are distributions over the
two classes (fixed order: class 0 = legitimate first, class 1 = fraud
second), every scored record's probabilities sum to 1, well within the 1e-6
tolerance; the exported `Fraud_Probability` column is the second component
(`prob[1]`, the class-1 mass) and `Legit_Probability` the first
(`prob[0]`, the class-0 mass), both in the Flask CSV export and in the
Streamlit results frame. -/
theorem scored_probabilities_sum_to_one (m : Model)
    (hm : ∀ row p, m.probaRow row = some p → p.1 + p.2 = 1) :
    (∀ (df2 : DataFrame) (preds : List Int) (probs : List (Rat × Rat)),
      make_predictions m df2 = Except.ok (preds, probs) →
      ∀ p ∈ probs, p.1 + p.2 = 1 ∧ |(p.2 + p.1) - 1| ≤ 1 / 1000000) ∧
    (∀ st : PredState, (download_predictions st).cols =
      st.originalData.cols ++
        [⟨"Prediction", Dtype.number, st.predictions.map (fun i => Value.num i)⟩,
         ⟨"Fraud_Probability", Dtype.number,
           st.probabilities.map (fun p => Value.num p.2)⟩,
         ⟨"Legit_Probability", Dtype.number,
           st.probabilities.map (fun p => Value.num p.1)⟩]) ∧
    (∀ (df : DataFrame) (preds : List Int) (probs : List (Rat × Rat)),
      (stResultOf df preds probs).dfResults.cols =
        df.cols ++
          [⟨"Prediction", Dtype.number, preds.map (fun i => Value.num i)⟩,
           ⟨"Fraud_Probability", Dtype.number,
             probs.map (fun p => Value.num p.2)⟩,
           ⟨"Legit_Probability", Dtype.number,
             probs.map (fun p => Value.num p.1)⟩]) := by
  refine ⟨?_, fun st => rfl, fun df preds probs => rfl⟩
  intro df2 preds probs hok p hp
  obtain ⟨_, hprobs⟩ := make_predictions_ok_elim m df2 preds probs hok
  obtain ⟨row, _, hrow⟩ := optionMapList_mem m.probaRow df2.rows probs hprobs p hp
  have hsum : p.1 + p.2 = 1 := hm row p hrow
  refine ⟨hsum, ?_⟩
  rw [add_comm, hsum]
  simp

/-- Witness for C9 at a constant two-class classifier and one concrete
processed row. -/
theorem scored_probabilities_sum_to_one_witness :
    (download_predictions ⟨⟨[]⟩, [0], [(1, 0)], "t"⟩).cols =
      (⟨[]⟩ : DataFrame).cols ++
        [⟨"Prediction", Dtype.number, ([0] : List Int).map (fun i => Value.num i)⟩,
         ⟨"Fraud_Probability", Dtype.number,
           ([(1, 0)] : List (Rat × Rat)).map (fun p => Value.num p.2)⟩,
         ⟨"Legit_Probability", Dtype.number,
           ([(1, 0)] : List (Rat × Rat)).map (fun p => Value.num p.1)⟩] :=
  (scored_probabilities_sum_to_one
    ⟨[], fun _ => some 0, fun _ => some (1, 0)⟩
    (fun row p h => by
      injection h with h2
      subst h2
      simp)).2.1 ⟨⟨[]⟩, [0], [(1, 0)], "t"⟩

end Claims

end AmlProject
